import Mathlib

/-!
Verification of the rate limiter (`src/api/rate_limiter.py`) and the
FAISS-backed vector store manager (`app/services/vector_store.py`).

Conventions of the embedding:
* Python `time.time()` is modelled as whole seconds `now : ℤ`.  The Python
  floor division `now // window_seconds` is `Int.ediv` (the Lean `/` on `ℤ`
  for a positive divisor), which matches the Python `//` exactly.  Every claim
  checked here is insensitive to sub-second fractions of the clock.
* Python ints are `ℤ`/`ℕ`; dictionaries keyed by strings are association
  lists (`List (String × _)`) with `kvGet`/`kvSet` mirroring read/write.
* Fallible operations return `Option`/`Except`.
-/

/-! ## Model: definitions translated from the source -/

/-- Read a key from an association list (Python `dict` read / `in` test). -/
def kvGet {β : Type} (k : String) : List (String × β) → Option β
  | [] => none
  | (k', v) :: rest => if k' = k then some v else kvGet k rest

/-- Write a key in an association list (Python `dict` assignment). -/
def kvSet {β : Type} (k : String) (v : β) : List (String × β) → List (String × β)
  | [] => [(k, v)]
  | (k', v') :: rest => if k' = k then (k, v) :: rest else (k', v') :: kvSet k v rest

/-- `RateLimitConfig` (rate_limiter.py, lines 63-81).  `__post_init__`
rejects non-positive `requests_per_window` / `window_seconds` / `cost`;
theorems carry those facts as hypotheses where needed.  The strategy /
burst / queue fields are never read by the check path and are omitted;
`nspace` is the `namespace` field. -/
structure RateLimitConfig where
  requestsPerWindow : ℕ
  windowSeconds : ℕ
  cost : ℕ
  nspace : String
deriving DecidableEq

/-- `RateLimitResult` (rate_limiter.py, lines 84-105). -/
structure RateLimitResult where
  allowed : Bool
  limit : ℕ
  remaining : ℤ
  resetTime : ℤ
  retryAfter : ℤ
  cost : ℕ
  identifier : String
  windowKey : String
deriving DecidableEq

/-- Per-window record stored by `InMemoryRateLimiter` (lines 172-177). -/
structure WindowData where
  count : ℕ
  created : ℤ
  identifier : String
  lastUpdated : Option ℤ
deriving DecidableEq

/-- `InMemoryRateLimiter` mutable state: `_storage` and `_last_cleanup`
(`_cleanup_interval` is the constant 300). -/
structure InMemoryState where
  storage : List (String × WindowData)
  lastCleanup : ℤ
deriving DecidableEq

/-- `window_start = int(now // window_seconds) * window_seconds` (line 139). -/
def windowStart (windowSeconds : ℕ) (now : ℤ) : ℤ :=
  (now / (windowSeconds : ℤ)) * windowSeconds

/-- `_get_window_key` (lines 137-140): `f"{identifier}:{window_start}"`.
Note the namespace is NOT part of the in-memory key. -/
def getWindowKey (identifier : String) (windowSeconds : ℕ) (now : ℤ) : String :=
  identifier ++ ":" ++ toString (windowStart windowSeconds now)

/-- Value of a decimal digit character. -/
def digitVal? (c : Char) : Option ℕ :=
  if '0' ≤ c ∧ c ≤ '9' then some (c.toNat - '0'.toNat) else none

/-- Python `int(...)` on a digit string; `none` when it would raise. -/
def parseNatDigits : List Char → Option ℕ
  | [] => none
  | cs => cs.foldl (fun acc c => acc.bind fun n => (digitVal? c).map fun d => 10 * n + d)
      (some 0)

/-- Python `int(...)` on an optionally signed decimal string.  (Python also
strips whitespace and allows underscores between digits; no key built by
the limiter contains those.) -/
def parseIntChars : List Char → Option ℤ
  | '-' :: rest => (parseNatDigits rest).map fun n => -(n : ℤ)
  | '+' :: rest => (parseNatDigits rest).map fun n => (n : ℤ)
  | cs => (parseNatDigits cs).map fun n => (n : ℤ)

/-- `int(key.split(":")[-1])` from `_cleanup_old_windows` (line 152);
`none` when the int conversion raises. -/
def parseWindowStart (key : String) : Option ℤ :=
  (key.data.splitOn ':').getLast?.bind parseIntChars

/-- `_cleanup_old_windows` (lines 142-161): at most every 300 s, drop
windows whose start lies more than 3600 s in the past ("keep only last
hour"), and keys whose window-start suffix fails to parse. -/
def cleanupOldWindows (s : InMemoryState) (now : ℤ) : InMemoryState :=
  if now - s.lastCleanup < 300 then s
  else
    { storage := s.storage.filter fun kv =>
        match parseWindowStart kv.1 with
        | some w => decide (now - w ≤ 3600)
        | none => false
      lastCleanup := now }

/-- `reset_time = (int(now // window_seconds) + 1) * window_seconds`. -/
def resetTimeOf (windowSeconds : ℕ) (now : ℤ) : ℤ :=
  (now / (windowSeconds : ℤ) + 1) * windowSeconds

/-- Body of `InMemoryRateLimiter.check_rate_limit` after the cleanup call
(lines 167-207): the code under `with self._lock:`. -/
def checkCore (s1 : InMemoryState) (identifier : String) (cfg : RateLimitConfig)
    (now : ℤ) : InMemoryState × RateLimitResult :=
  let windowKey := getWindowKey identifier cfg.windowSeconds now
  let resetTime := resetTimeOf cfg.windowSeconds now
  let freshData : WindowData := ⟨0, now, identifier, none⟩
  let s2 : InMemoryState :=
    if (kvGet windowKey s1.storage).isNone then
      { s1 with storage := kvSet windowKey freshData s1.storage }
    else s1
  let windowData := (kvGet windowKey s2.storage).getD freshData
  let currentCount := windowData.count
  if cfg.requestsPerWindow < currentCount + cfg.cost then
    (s2,
      { allowed := false
        limit := cfg.requestsPerWindow
        remaining := max 0 ((cfg.requestsPerWindow : ℤ) - currentCount)
        resetTime := resetTime
        retryAfter := resetTime - now
        cost := cfg.cost
        identifier := identifier
        windowKey := windowKey })
  else
    let newData : WindowData :=
      { windowData with count := currentCount + cfg.cost, lastUpdated := some now }
    let s3 : InMemoryState := { s2 with storage := kvSet windowKey newData s2.storage }
    (s3,
      { allowed := true
        limit := cfg.requestsPerWindow
        remaining := (cfg.requestsPerWindow : ℤ) - (currentCount + cfg.cost)
        resetTime := resetTime
        retryAfter := 0
        cost := cfg.cost
        identifier := identifier
        windowKey := windowKey })

/-- `InMemoryRateLimiter.check_rate_limit` (lines 163-207). -/
def checkRateLimit (s : InMemoryState) (identifier : String) (cfg : RateLimitConfig)
    (now : ℤ) : InMemoryState × RateLimitResult :=
  checkCore (cleanupOldWindows s now) identifier cfg now

/-- Body of `InMemoryRateLimiter.get_usage` after the cleanup call
(lines 213-241). -/
def usageCore (s1 : InMemoryState) (identifier : String) (cfg : RateLimitConfig)
    (now : ℤ) : InMemoryState × RateLimitResult :=
  let windowKey := getWindowKey identifier cfg.windowSeconds now
  let resetTime := resetTimeOf cfg.windowSeconds now
  match kvGet windowKey s1.storage with
  | none =>
    (s1,
      { allowed := true
        limit := cfg.requestsPerWindow
        remaining := (cfg.requestsPerWindow : ℤ)
        resetTime := resetTime
        retryAfter := 0
        cost := cfg.cost
        identifier := identifier
        windowKey := windowKey })
  | some windowData =>
    let currentCount := windowData.count
    (s1,
      { allowed := decide (currentCount < cfg.requestsPerWindow)
        limit := cfg.requestsPerWindow
        remaining := max 0 ((cfg.requestsPerWindow : ℤ) - currentCount)
        resetTime := resetTime
        retryAfter := if cfg.requestsPerWindow ≤ currentCount then resetTime - now else 0
        cost := cfg.cost
        identifier := identifier
        windowKey := windowKey })

/-- `InMemoryRateLimiter.get_usage` (lines 209-241). -/
def getUsage (s : InMemoryState) (identifier : String) (cfg : RateLimitConfig)
    (now : ℤ) : InMemoryState × RateLimitResult :=
  usageCore (cleanupOldWindows s now) identifier cfg now

/-- Issue `n` consecutive `check_rate_limit` calls at time `now`,
returning the final state and the results in call order. -/
def runCalls (s : InMemoryState) (identifier : String) (cfg : RateLimitConfig)
    (now : ℤ) : ℕ → InMemoryState × List RateLimitResult
  | 0 => (s, [])
  | n + 1 =>
    let sr := checkRateLimit s identifier cfg now
    let rest := runCalls sr.1 identifier cfg now n
    (rest.1, sr.2 :: rest.2)

/-- Redis key-value state: key → (integer value, expiry time).  A key is
gone once `expireAt ≤ now` (Redis TTL). -/
abbrev RedisState := List (String × (ℕ × ℤ))

/-- Redis `GET` of a counter, honouring expiry. -/
def redisGet (st : RedisState) (key : String) (now : ℤ) : Option ℕ :=
  (kvGet key st).bind fun ve => if now < ve.2 then some ve.1 else none

/-- The record the `_lua_script` returns (rate_limiter.py, lines 327-355);
the script serialises these values as strings and
`RedisRateLimiter.check_rate_limit` parses them back, a lossless
round trip on these integer values. -/
structure LuaReply where
  allowed : Bool
  limit : ℕ
  remaining : ℤ
  resetTime : ℤ
  retryAfter : ℤ
  current : ℕ
  windowStart : ℤ
deriving DecidableEq

/-- The `_lua_script` (lines 300-356): fixed-window check-and-increment,
executed atomically on the Redis server.  `INCRBY` followed by
`EXPIRE window * 2` leaves the counter with expiry `now + 2 * window`. -/
def luaCheck (st : RedisState) (key : String) (window limit cost : ℕ)
    (now : ℤ) : RedisState × LuaReply :=
  let wstart := windowStart window now
  let windowKey := key ++ ":" ++ toString wstart
  let current := (redisGet st windowKey now).getD 0
  if limit < current + cost then
    (st,
      { allowed := false
        limit := limit
        remaining := max 0 ((limit : ℤ) - current)
        resetTime := wstart + window
        retryAfter := wstart + window - now
        current := current
        windowStart := wstart })
  else
    let st' := kvSet windowKey (current + cost, now + 2 * window) st
    (st',
      { allowed := true
        limit := limit
        remaining := (limit : ℤ) - (current + cost)
        resetTime := wstart + window
        retryAfter := 0
        current := current + cost
        windowStart := wstart })

/-- `_generate_key` (lines 369-373): `f"{namespace}:{md5(identifier)[:16]}"`.
The md5 digest prefix is modelled as an opaque function `h`. -/
def redisKeyOf (h : String → String) (identifier nspace : String) : String :=
  nspace ++ ":" ++ h identifier

/-- Reconstruction of a `RateLimitResult` from the parsed Lua reply
(lines 403-428).  (Python formats the parsed `window_start` float back
into `window_key`, so the real string ends in `.0`; that field is never
read anywhere.) -/
def replyToResult (redisK : String) (cost : ℕ) (identifier : String)
    (rep : LuaReply) : RateLimitResult :=
  { allowed := rep.allowed
    limit := rep.limit
    remaining := rep.remaining
    resetTime := rep.resetTime
    retryAfter := rep.retryAfter
    cost := cost
    identifier := identifier
    windowKey := redisK ++ ":" ++ toString rep.windowStart }

/-- Outcome of one `EVALSHA` round trip as seen by the client. -/
inductive EvalOutcome where
  | runs
  | noScript
  | fails (msg : String)

/-- The behaviour of the Redis connection during a call: what
`SCRIPT LOAD` returns (or raises), and what `EVALSHA` does per sha. -/
structure RedisBehavior where
  scriptLoadResult : Except String String
  evalsha : String → EvalOutcome

/-- The fail-open fallback result (lines 437-446 and 476-485). -/
def failOpenResult (cfg : RateLimitConfig) (identifier : String)
    (now : ℤ) : RateLimitResult :=
  { allowed := true
    limit := cfg.requestsPerWindow
    remaining := (cfg.requestsPerWindow : ℤ)
    resetTime := now + cfg.windowSeconds
    retryAfter := 0
    cost := cfg.cost
    identifier := identifier
    windowKey := "fallback" }

/-- `_ensure_script_loaded` (lines 358-367): returns the cached sha, or
performs `SCRIPT LOAD` — whose failure RAISES (this call sits outside the
`try` of `check_rate_limit`). -/
def ensureScriptLoaded (b : RedisBehavior) (scriptSha : Option String) :
    Except String String :=
  match scriptSha with
  | some sha => .ok sha
  | none => b.scriptLoadResult

/-- `RedisRateLimiter.check_rate_limit` (lines 375-446).  Returns the new
sha cache, the new server state, and the result; `.error` models an
exception propagating to the caller.  `fuel` bounds the
`NoScriptError` → reload → retry recursion (unbounded in the source). -/
def redisCheckRateLimit (h : String → String) (b : RedisBehavior) (fuel : ℕ)
    (scriptSha : Option String) (st : RedisState) (identifier : String)
    (cfg : RateLimitConfig) (now : ℤ) :
    Except String (Option String × RedisState × RateLimitResult) :=
  match ensureScriptLoaded b scriptSha with
  | .error e => .error e
  | .ok sha =>
    match b.evalsha sha with
    | .runs =>
      let key := redisKeyOf h identifier cfg.nspace
      let out := luaCheck st key cfg.windowSeconds cfg.requestsPerWindow cfg.cost now
      .ok (some sha, out.1, replyToResult key cfg.cost identifier out.2)
    | .noScript =>
      match fuel with
      | 0 => .error "NoScriptError retry limit"
      | fuel' + 1 => redisCheckRateLimit h b fuel' none st identifier cfg now
    | .fails _msg =>
      .ok (some sha, st, failOpenResult cfg identifier now)

/-- A state is recently cleaned when the 300-second sweep interval has not
elapsed, so `_cleanup_old_windows` is a no-op on it. -/
def RecentlyCleaned (s : InMemoryState) (now : ℤ) : Prop :=
  now - s.lastCleanup < 300

/-- Issue consecutive Lua-script checks at the given times. -/
def runLuaCalls (st : RedisState) (key : String) (w limit cost : ℕ) :
    List ℤ → RedisState × List LuaReply
  | [] => (st, [])
  | t :: ts =>
    let o := luaCheck st key w limit cost t
    let rest := runLuaCalls o.1 key w limit cost ts
    (rest.1, o.2 :: rest.2)

/-- The counter value stored for a key (0 when no record exists — exactly
what the check path reads after its insert-if-absent step). -/
def countAt (l : List (String × WindowData)) (k : String) : ℕ :=
  ((kvGet k l).map (·.count)).getD 0

/-- A chunk record as stored in `VectorStore.metadata`: `add_texts` sets
`chunk_id` and `collection_name` on each input chunk (lines 84-92).  The
free-form metadata and the `added_at` timestamp are never read by the
operations verified here and are omitted. -/
structure Chunk where
  chunkId : String
  text : String
  collectionName : String
deriving DecidableEq

/-- `VectorStore` state (lines 16-41): FAISS `IndexIDMap2` is a list of
(faiss id, vector) pairs in insertion order, `None` before
`create_index`; embeddings are an abstract type `α`.  `total_chunks` is a
Python int (it can drift from both lengths).  The persistence paths are
modelled separately. -/
structure VectorStore (α : Type) where
  collectionName : String
  index : Option (List (ℕ × α))
  metadata : List Chunk
  totalChunks : ℤ
deriving DecidableEq

/-- Value of a hexadecimal digit. -/
def hexDigitVal? (c : Char) : Option ℕ :=
  if '0' ≤ c ∧ c ≤ '9' then some (c.toNat - '0'.toNat)
  else if 'a' ≤ c ∧ c ≤ 'f' then some (c.toNat - 'a'.toNat + 10)
  else if 'A' ≤ c ∧ c ≤ 'F' then some (c.toNat - 'A'.toNat + 10)
  else none

/-- Python `int(s, 16)`; `none` when it would raise.  (Python also allows
sign, surrounding whitespace and inner underscores; the ids fed to this
are uuid4 prefixes, plain hex.) -/
def hexVal? (s : String) : Option ℕ :=
  if s.data.isEmpty then none
  else s.data.foldl
    (fun acc c => acc.bind fun n => (hexDigitVal? c).map fun d => 16 * n + d)
    (some 0)

/-- Python slicing `s[:n]`. -/
def strTake (s : String) (n : ℕ) : String := String.mk (s.data.take n)

/-- Python `str.strip()` with no argument: drop leading and trailing
whitespace. -/
def pyStrip (s : String) : String :=
  String.mk (((s.data.dropWhile Char.isWhitespace).reverse.dropWhile
    Char.isWhitespace).reverse)

/-- `int(chunk_id[:8], 16)` — the FAISS id of a chunk (lines 106, 199). -/
def faissIdOf (chunkId : String) : ℕ := (hexVal? (strTake chunkId 8)).getD 0

/-- `EmbeddingService.embed_texts` (embeddings.py, lines 35-67): strips
every text and silently DROPS blank ones, so the returned batch can be
shorter than the input; the embedding model is the oracle `embed`. -/
def embedTexts {α : Type} (embed : String → α) (texts : List String) : List α :=
  ((texts.map pyStrip).filter fun t => decide (t ≠ "")).map embed

/-- Slicing recursion for `toBatches`, structural on a fuel that starts at
the list length (for `b ≥ 1` each step drops at least one element, so the
fuel is never exhausted before the list is). -/
def toBatchesGo {γ : Type} (b : ℕ) : ℕ → List γ → List (List γ)
  | _, [] => []
  | 0, _ :: _ => []
  | fuel + 1, x :: xs => (x :: xs).take b :: toBatchesGo b fuel ((x :: xs).drop b)

/-- `range(0, n, batch_size)` slicing of a list (`add_texts`, line 95);
the empty list for `batchSize = 0`, where Python `range` raises. -/
def toBatches {γ : Type} (b : ℕ) (l : List γ) : List (List γ) :=
  if b = 0 then [] else toBatchesGo b l.length l

/-- One batch step of `add_texts` (lines 95-112): embed the cleaned batch,
skip it entirely when every text was blank, otherwise append the
(id, embedding) pairs to the index and bump `total_chunks` by the FULL
batch length.  (`add_with_ids` pairs the id array with the embedding
rows; FAISS asserts the two lengths match — they differ only when a batch
mixes blank and non-blank texts, where the Python call raises.) -/
def addBatch {α : Type} (embed : String → α) (acc : VectorStore α)
    (batch : List (String × String)) : VectorStore α :=
  let embeddings := embedTexts embed (batch.map (·.1))
  if embeddings.isEmpty then acc
  else
    let idArr := batch.map fun p => faissIdOf p.2
    { acc with
      index := acc.index.map fun idx => idx ++ idArr.zip embeddings
      totalChunks := acc.totalChunks + batch.length }

/-- `VectorStore.add_texts` (lines 58-115).  `pairs` is the chunk list
together with the uuid4 ids `add_texts` would draw: `(text, chunk_id)`.
All chunks are appended to `metadata` up front; the index only receives
the batches whose cleaned text list is non-empty. -/
def addTexts {α : Type} (embed : String → α) (s : VectorStore α)
    (pairs : List (String × String)) (batchSize : ℕ) :
    VectorStore α × List String :=
  if pairs.isEmpty then (s, [])
  else
    let s0 := if s.index.isNone then { s with index := some [] } else s
    let newMeta := pairs.map fun p => (⟨p.2, p.1, s0.collectionName⟩ : Chunk)
    let chunkIds := pairs.map (·.2)
    let s1 := { s0 with metadata := s0.metadata ++ newMeta }
    ((toBatches batchSize pairs).foldl (addBatch embed) s1, chunkIds)

/-- `index.ntotal` as reported by `get_stats` (0 when the index is None). -/
def ntotal {α : Type} (s : VectorStore α) : ℕ := (s.index.map List.length).getD 0

/-- `VectorStore.delete_chunks` (lines 182-222): remove matching FAISS ids
from the index and matching `chunk_id`s from the metadata, decrement
`total_chunks` by the number of metadata records removed. -/
def deleteChunks {α : Type} (s : VectorStore α) (chunkIds : List String) :
    VectorStore α × ℕ :=
  if s.index.isNone ∨ chunkIds.isEmpty then (s, 0)
  else
    let idsToRemove := chunkIds.filterMap fun cid => hexVal? (strTake cid 8)
    if idsToRemove.isEmpty then (s, 0)
    else
      let s1 := { s with
        index := s.index.map fun (idx : List (ℕ × α)) => idx.filter fun e => decide (e.1 ∉ idsToRemove) }
      let initialCount := s1.metadata.length
      let newMeta := s1.metadata.filter fun (ch : Chunk) => decide (ch.chunkId ∉ chunkIds)
      let deleted : ℕ := initialCount - newMeta.length
      ({ s1 with metadata := newMeta, totalChunks := s1.totalChunks - deleted },
        deleted)

/-- The fields of `get_stats` (lines 287-296) the claims read
(`collection_id`, `dimension`, `is_trained` omitted). -/
structure CollectionStats where
  collectionName : String
  totalChunks : ℤ
  indexSize : ℕ
deriving DecidableEq

def getStats {α : Type} (s : VectorStore α) : CollectionStats :=
  ⟨s.collectionName, s.totalChunks, ntotal s⟩

/-- The info blob `save` writes (lines 236-246); only `collection_name`
and `total_chunks` are ever read back. -/
structure InfoFile where
  collectionName : String
  totalChunks : ℤ
deriving DecidableEq

/-- The three per-collection artifacts on disk (present or absent). -/
structure DiskFiles (α : Type) where
  indexFile : Option (List (ℕ × α))
  metadataFile : Option (List Chunk)
  infoFile : Option InfoFile
deriving DecidableEq

/-- The store root: one directory (keyed by name) per collection. -/
abbrev Disk (α : Type) := List (String × DiskFiles α)

/-- `VectorStore.save` (lines 224-252): the index file is written only
when an index exists (a previous one is left in place otherwise);
metadata and info are always rewritten. -/
def saveStore {α : Type} (s : VectorStore α) (d : Disk α) : Disk α :=
  let old := (kvGet s.collectionName d).getD ⟨none, none, none⟩
  kvSet s.collectionName
    (⟨match s.index with
      | some i => some i
      | none => old.indexFile,
      some s.metadata,
      some ⟨s.collectionName, s.totalChunks⟩⟩ : DiskFiles α) d

/-- `VectorStore.load` (lines 254-285) for a fresh `VectorStore(name)`:
fails (returns `False` → `none`) when the index file is missing; metadata
defaults to `[]` and `total_chunks` to `info.get("total_chunks", 0)`. -/
def loadStore {α : Type} (name : String) (d : Disk α) : Option (VectorStore α) :=
  match kvGet name d with
  | none => none
  | some files =>
    match files.indexFile with
    | none => none
    | some idx =>
      some { collectionName := name
             index := some idx
             metadata := files.metadataFile.getD []
             totalChunks := (files.infoFile.map (·.totalChunks)).getD 0 }

/-- One directory of `VectorStoreManager.load_existing_stores`
(lines 306-326): needs an info blob, a TRUTHY collection name (the
Python check `if collection_name:` skips an empty name), and a
successful `store.load()` — which reads from the directory named by the
info blob `collection_name`, not the directory being scanned. -/
def loadStep {α : Type} (d : Disk α) (acc : List (String × VectorStore α))
    (entry : String × DiskFiles α) : List (String × VectorStore α) :=
  match entry.2.infoFile with
  | none => acc
  | some info =>
    if info.collectionName = "" then acc
    else
      match loadStore info.collectionName d with
      | some s => kvSet info.collectionName s acc
      | none => acc

def loadExistingStores {α : Type} (d : Disk α) : List (String × VectorStore α) :=
  d.foldl (loadStep d) []

/-- `VectorStoreManager` (lines 299-304). -/
structure VectorStoreManager (α : Type) where
  stores : List (String × VectorStore α)
deriving DecidableEq

def newManager {α : Type} (d : Disk α) : VectorStoreManager α :=
  ⟨loadExistingStores d⟩

/-- `VectorStoreManager.get_store` (lines 328-344): an unknown name gets
a fresh store with a created (empty) index. -/
def getStore {α : Type} (m : VectorStoreManager α) (name : String) :
    VectorStore α :=
  match kvGet name m.stores with
  | some s => s
  | none => ⟨name, some [], [], 0⟩

/-- `VectorStoreManager.add_document` (lines 346-366): get-or-create the
store, add the chunks, save to disk.  (Python inserts the store object
into `self.stores` inside `get_store` and then mutates it in place;
writing the updated store back is the same net effect.) -/
def addDocument {α : Type} (embed : String → α) (m : VectorStoreManager α)
    (d : Disk α) (name : String) (pairs : List (String × String))
    (batchSize : ℕ) : VectorStoreManager α × Disk α × List String :=
  let out := addTexts embed (getStore m name) pairs batchSize
  (⟨kvSet name out.1 m.stores⟩, saveStore out.1 d, out.2)

/-- `VectorStoreManager.get_collection_stats` for a named collection
(lines 469-482); `none` models the `{}` returned for an unknown name. -/
def getCollectionStats {α : Type} (m : VectorStoreManager α) (name : String) :
    Option CollectionStats :=
  (kvGet name m.stores).map getStats

/-- One search hit as consumed by `search_all`: the chunk `"text"` and
`"similarity_score"` entries (plus its collection). -/
structure SearchResult where
  text : String
  score : ℚ
  collectionName : String
deriving DecidableEq

/-- `VectorStore.similarity_search` (lines 117-149).  The guard clauses
and `k = min(k, self.total_chunks)` are in src; the body of the result
loop is NOT — the repository copy of vector_store.py is corrupted (the
text from `< score_threshold` in line 149 up to the next `>` was
stripped).  Modelled from the spec: "performs inner-product
nearest-neighbor search restricted to the named collection, discards
results below `score_threshold`, returns up to `k` results sorted by
descending score", each hit carrying the chunk and its similarity score.
The similarity of a query and a stored text is the oracle `sim`. -/
def similaritySearch {α : Type} (sim : String → String → ℚ) (s : VectorStore α)
    (query : String) (k : ℕ) (scoreThreshold : ℚ) : List SearchResult :=
  if s.index.isNone ∨ s.totalChunks = 0 then []
  else
    let k' := min k s.totalChunks.toNat
    ((List.insertionSort (fun a b : SearchResult => b.score ≤ a.score)
        (s.metadata.map fun ch =>
          (⟨ch.text, sim query ch.text, s.collectionName⟩ : SearchResult))).take
      k').filter fun r => decide (scoreThreshold ≤ r.score)

/-- The merged per-collection results of `search_all` (lines 414-423):
`search` each requested collection that exists, concatenating. -/
def mergedResults {α : Type} (sim : String → String → ℚ)
    (m : VectorStoreManager α) (query : String)
    (collectionNames : Option (List String)) (kPerCollection : ℕ)
    (scoreThreshold : ℚ) : List SearchResult :=
  (collectionNames.getD (m.stores.map (·.1))).flatMap fun n =>
    match kvGet n m.stores with
    | some s => similaritySearch sim s query kPerCollection scoreThreshold
    | none => []

/-- The dedup loop of `search_all` (lines 428-437): keep a result when
its text is non-empty (`if text`) and not seen before. -/
def dedupByText : List SearchResult → List String → List SearchResult
  | [], _ => []
  | r :: rest, seen =>
    if r.text ≠ "" ∧ r.text ∉ seen then r :: dedupByText rest (r.text :: seen)
    else dedupByText rest seen

/-- `VectorStoreManager.search_all` (lines 395-437): merge, sort by score
descending (the Python stable sort with `reverse=True`; the output of a
stable sort is unique, so `insertionSort` by `≥` matches it), dedup by text. -/
def searchAll {α : Type} (sim : String → String → ℚ) (m : VectorStoreManager α)
    (query : String) (collectionNames : Option (List String))
    (kPerCollection : ℕ) (scoreThreshold : ℚ) : List SearchResult :=
  dedupByText
    (List.insertionSort (fun a b : SearchResult => b.score ≤ a.score)
      (mergedResults sim m query collectionNames kPerCollection scoreThreshold))
    []

instance : IsTotal SearchResult (fun a b => b.score ≤ a.score) :=
  ⟨fun a b => le_total b.score a.score⟩

instance : IsTrans SearchResult (fun a b => b.score ≤ a.score) :=
  ⟨fun _ _ _ hab hbc => le_trans hbc hab⟩

/-- The fixed similarity oracle of the concrete scenario: identical texts
have similarity 1, others 0 (the spec: near-identical vectors score
≈ 1). -/
def sameTextSim : String → String → ℚ := fun q t => if q = t then 1 else 0

/-- Two collections each holding one chunk with the same text `"T"`. -/
def twoCollectionManager : VectorStoreManager Unit :=
  ⟨[("c1", ⟨"c1", some [(1, ())], [⟨"id1", "T", "c1"⟩], 1⟩),
    ("c2", ⟨"c2", some [(2, ())], [⟨"id2", "T", "c2"⟩], 1⟩)]⟩

/-- A collection whose only chunk has empty text (similarity 1 ≥ any
threshold of 0). -/
def emptyTextManager : VectorStoreManager Unit :=
  ⟨[("c", ⟨"c", some [(0, ())], [⟨"id", "", "c"⟩], 1⟩)]⟩

/-! ## Theorems -/

theorem kvGet_kvSet_self {β : Type} (k : String) (v : β) (l : List (String × β)) :
    kvGet k (kvSet k v l) = some v := by
  induction l with
  | nil => simp [kvGet, kvSet]
  | cons hd tl ih =>
    obtain ⟨k', v'⟩ := hd
    by_cases h : k' = k <;> simp [kvGet, kvSet, h, ih]

theorem kvGet_kvSet_ne {β : Type} {k k' : String} (v : β) (l : List (String × β))
    (h : k' ≠ k) : kvGet k' (kvSet k v l) = kvGet k' l := by
  induction l with
  | nil => simp [kvGet, kvSet, Ne.symm h]
  | cons hd tl ih =>
    obtain ⟨k0, v0⟩ := hd
    by_cases h0 : k0 = k
    · subst h0
      simp [kvGet, kvSet, Ne.symm h]
    · simp only [kvSet, if_neg h0]
      by_cases h1 : k0 = k' <;> simp [kvGet, h1, ih]

theorem cleanup_noop {s : InMemoryState} {now : ℤ} (h : RecentlyCleaned s now) :
    cleanupOldWindows s now = s := by
  unfold cleanupOldWindows
  exact if_pos h

theorem cleanup_recentlyCleaned (s : InMemoryState) (now : ℤ) :
    RecentlyCleaned (cleanupOldWindows s now) now := by
  unfold cleanupOldWindows RecentlyCleaned
  split
  · assumption
  · simp

theorem cleanup_idem (s : InMemoryState) (now : ℤ) :
    cleanupOldWindows (cleanupOldWindows s now) now = cleanupOldWindows s now :=
  cleanup_noop (cleanup_recentlyCleaned s now)

theorem checkRateLimit_cleanup (s : InMemoryState) (identifier : String)
    (cfg : RateLimitConfig) (now : ℤ) :
    checkRateLimit (cleanupOldWindows s now) identifier cfg now =
      checkRateLimit s identifier cfg now := by
  unfold checkRateLimit
  rw [cleanup_idem]

theorem getUsage_state (s : InMemoryState) (identifier : String)
    (cfg : RateLimitConfig) (now : ℤ) :
    (getUsage s identifier cfg now).1 = cleanupOldWindows s now := by
  simp only [getUsage, usageCore]
  cases kvGet (getWindowKey identifier cfg.windowSeconds now)
      (cleanupOldWindows s now).storage <;> rfl

theorem cleanup_storage_sublist (s : InMemoryState) (now : ℤ) :
    (cleanupOldWindows s now).storage.Sublist s.storage := by
  unfold cleanupOldWindows
  split
  · exact List.Sublist.refl _
  · exact List.filter_sublist _

theorem kvGet_filter_none {β : Type} {k : String} {l : List (String × β)}
    (p : String × β → Bool) (h : kvGet k l = none) :
    kvGet k (l.filter p) = none := by
  induction l with
  | nil => simp [kvGet]
  | cons hd tl ih =>
    obtain ⟨k0, v0⟩ := hd
    by_cases h0 : k0 = k
    · subst h0
      simp [kvGet] at h
    · simp only [kvGet, if_neg h0] at h
      by_cases hp : p (k0, v0) <;> simp [List.filter, hp, kvGet, h0, ih h]

theorem cleanup_kvGet_none {s : InMemoryState} {now : ℤ} {k : String}
    (h : kvGet k s.storage = none) :
    kvGet k (cleanupOldWindows s now).storage = none := by
  unfold cleanupOldWindows
  split
  · exact h
  · exact kvGet_filter_none _ h

/-- Denial case of the post-cleanup body: the counter is not incremented
and the state (storage and sweep stamp) is returned as-is. -/
theorem checkCore_denied (s1 : InMemoryState) (identifier : String)
    (cfg : RateLimitConfig) (now : ℤ) (d : WindowData)
    (hkey : kvGet (getWindowKey identifier cfg.windowSeconds now) s1.storage = some d)
    (hgt : cfg.requestsPerWindow < d.count + cfg.cost) :
    checkCore s1 identifier cfg now =
      (s1,
        { allowed := false
          limit := cfg.requestsPerWindow
          remaining := max 0 ((cfg.requestsPerWindow : ℤ) - d.count)
          resetTime := resetTimeOf cfg.windowSeconds now
          retryAfter := resetTimeOf cfg.windowSeconds now - now
          cost := cfg.cost
          identifier := identifier
          windowKey := getWindowKey identifier cfg.windowSeconds now }) := by
  simp [checkCore, hkey, hgt]

/-- Allowed case of the post-cleanup body for an existing window record:
the count of the record is bumped by `cost`. -/
theorem checkCore_allowed (s1 : InMemoryState) (identifier : String)
    (cfg : RateLimitConfig) (now : ℤ) (d : WindowData)
    (hkey : kvGet (getWindowKey identifier cfg.windowSeconds now) s1.storage = some d)
    (hle : d.count + cfg.cost ≤ cfg.requestsPerWindow) :
    checkCore s1 identifier cfg now =
      (⟨kvSet (getWindowKey identifier cfg.windowSeconds now)
          ({ d with count := d.count + cfg.cost, lastUpdated := some now }) s1.storage,
        s1.lastCleanup⟩,
        { allowed := true
          limit := cfg.requestsPerWindow
          remaining := (cfg.requestsPerWindow : ℤ) - (d.count + cfg.cost)
          resetTime := resetTimeOf cfg.windowSeconds now
          retryAfter := 0
          cost := cfg.cost
          identifier := identifier
          windowKey := getWindowKey identifier cfg.windowSeconds now }) := by
  simp [checkCore, hkey, Nat.not_lt.mpr hle]

/-- Allowed case of the post-cleanup body for an absent window record:
a fresh record is inserted and bumped to `cost`. -/
theorem checkCore_absent_allowed (s1 : InMemoryState) (identifier : String)
    (cfg : RateLimitConfig) (now : ℤ)
    (hkey : kvGet (getWindowKey identifier cfg.windowSeconds now) s1.storage = none)
    (hle : cfg.cost ≤ cfg.requestsPerWindow) :
    checkCore s1 identifier cfg now =
      (⟨kvSet (getWindowKey identifier cfg.windowSeconds now)
          (⟨cfg.cost, now, identifier, some now⟩ : WindowData)
          (kvSet (getWindowKey identifier cfg.windowSeconds now)
            (⟨0, now, identifier, none⟩ : WindowData) s1.storage),
        s1.lastCleanup⟩,
        { allowed := true
          limit := cfg.requestsPerWindow
          remaining := (cfg.requestsPerWindow : ℤ) - cfg.cost
          resetTime := resetTimeOf cfg.windowSeconds now
          retryAfter := 0
          cost := cfg.cost
          identifier := identifier
          windowKey := getWindowKey identifier cfg.windowSeconds now }) := by
  simp [checkCore, hkey, kvGet_kvSet_self, Nat.not_lt.mpr (by simpa using hle)]

theorem windowStart_le {w : ℕ} (hw : 0 < w) (now : ℤ) : windowStart w now ≤ now :=
  Int.ediv_mul_le now (by exact_mod_cast hw.ne')

theorem lt_windowStart_add {w : ℕ} (hw : 0 < w) (now : ℤ) :
    now < windowStart w now + w := by
  have h := Int.lt_ediv_add_one_mul_self now (b := (w : ℤ)) (by exact_mod_cast hw)
  calc now < (now / (w : ℤ) + 1) * w := h
    _ = windowStart w now + w := by unfold windowStart; ring

theorem resetTimeOf_eq (w : ℕ) (now : ℤ) :
    resetTimeOf w now = windowStart w now + w := by
  unfold resetTimeOf windowStart; ring

theorem checkCore_lastCleanup (s1 : InMemoryState) (identifier : String)
    (cfg : RateLimitConfig) (now : ℤ) :
    (checkCore s1 identifier cfg now).1.lastCleanup = s1.lastCleanup := by
  unfold checkCore
  dsimp only
  split <;> split <;> rfl

theorem checkRateLimit_recentlyCleaned (s : InMemoryState) (identifier : String)
    (cfg : RateLimitConfig) (now : ℤ) :
    RecentlyCleaned (checkRateLimit s identifier cfg now).1 now := by
  unfold checkRateLimit RecentlyCleaned
  rw [checkCore_lastCleanup]
  exact cleanup_recentlyCleaned s now

/-- After `n` allowed calls the window counter has grown by `n * cost`,
every result was allowed, and the `remaining` values count down. -/
theorem runCalls_spec (identifier : String) (cfg : RateLimitConfig) (now : ℤ)
    (n : ℕ) :
    ∀ (s : InMemoryState) (d : WindowData),
      RecentlyCleaned s now →
      kvGet (getWindowKey identifier cfg.windowSeconds now) s.storage = some d →
      d.count + n * cfg.cost ≤ cfg.requestsPerWindow →
      (runCalls s identifier cfg now n).2.map (·.allowed) = List.replicate n true ∧
      (runCalls s identifier cfg now n).2.map (·.remaining) =
        (List.range n).map
          (fun i : ℕ =>
            (cfg.requestsPerWindow : ℤ) - ((d.count : ℤ) + ((i : ℤ) + 1) * (cfg.cost : ℤ))) ∧
      RecentlyCleaned (runCalls s identifier cfg now n).1 now ∧
      ∃ d', kvGet (getWindowKey identifier cfg.windowSeconds now)
          (runCalls s identifier cfg now n).1.storage = some d' ∧
        d'.count = d.count + n * cfg.cost := by
  induction n with
  | zero =>
    intro s d hrc hkey _
    exact ⟨rfl, rfl, hrc, d, hkey, by simp⟩
  | succ n ih =>
    intro s d hrc hkey hle
    have hle1 : d.count + cfg.cost ≤ cfg.requestsPerWindow := by
      calc d.count + cfg.cost ≤ d.count + (n + 1) * cfg.cost := by
            have : cfg.cost ≤ (n + 1) * cfg.cost := Nat.le_mul_of_pos_left _ (Nat.succ_pos n)
            omega
        _ ≤ cfg.requestsPerWindow := hle
    have hstep : checkRateLimit s identifier cfg now =
        (⟨kvSet (getWindowKey identifier cfg.windowSeconds now)
            ({ d with count := d.count + cfg.cost, lastUpdated := some now }) s.storage,
          s.lastCleanup⟩,
          { allowed := true
            limit := cfg.requestsPerWindow
            remaining := (cfg.requestsPerWindow : ℤ) - (d.count + cfg.cost)
            resetTime := resetTimeOf cfg.windowSeconds now
            retryAfter := 0
            cost := cfg.cost
            identifier := identifier
            windowKey := getWindowKey identifier cfg.windowSeconds now }) := by
      unfold checkRateLimit
      rw [cleanup_noop hrc]
      exact checkCore_allowed s identifier cfg now d hkey hle1
    set d1 : WindowData := { d with count := d.count + cfg.cost, lastUpdated := some now }
      with hd1
    set s1 : InMemoryState :=
      ⟨kvSet (getWindowKey identifier cfg.windowSeconds now) d1 s.storage,
        s.lastCleanup⟩ with hs1
    have hrc1 : RecentlyCleaned s1 now := hrc
    have hkey1 : kvGet (getWindowKey identifier cfg.windowSeconds now) s1.storage =
        some d1 := kvGet_kvSet_self _ _ _
    have hle2 : d1.count + n * cfg.cost ≤ cfg.requestsPerWindow := by
      have : d1.count = d.count + cfg.cost := rfl
      rw [this]
      calc d.count + cfg.cost + n * cfg.cost = d.count + (n + 1) * cfg.cost := by ring
        _ ≤ cfg.requestsPerWindow := hle
    obtain ⟨hall, hrem, hrcn, d', hd', hcount⟩ := ih s1 d1 hrc1 hkey1 hle2
    have hrun : runCalls s identifier cfg now (n + 1) =
        ((runCalls s1 identifier cfg now n).1,
          (checkRateLimit s identifier cfg now).2 ::
            (runCalls s1 identifier cfg now n).2) := by
      show (let sr := checkRateLimit s identifier cfg now
            let rest := runCalls sr.1 identifier cfg now n
            (rest.1, sr.2 :: rest.2)) = _
      rw [hstep]
    refine ⟨?_, ?_, ?_, d', ?_, ?_⟩
    · rw [hrun]
      simp only [List.map_cons, hall, hstep, List.replicate_succ]
    · rw [hrun]
      simp only [List.map_cons, hrem, hstep]
      rw [List.range_succ_eq_map, List.map_cons, List.map_map]
      congr 1
      · push_cast; ring
      · apply List.map_congr_left
        intro i _
        simp only [Function.comp_apply]
        push_cast; ring
    · rw [hrun]; exact hrcn
    · rw [hrun]; exact hd'
    · rw [hcount]
      show d.count + cfg.cost + n * cfg.cost = d.count + (n + 1) * cfg.cost
      ring

theorem luaCheck_allowed_eq (st : RedisState) (key : String) (w limit cost : ℕ)
    (now : ℤ) (c : ℕ)
    (hc : (redisGet st (key ++ ":" ++ toString (windowStart w now)) now).getD 0 = c)
    (hle : c + cost ≤ limit) :
    luaCheck st key w limit cost now =
      (kvSet (key ++ ":" ++ toString (windowStart w now)) (c + cost, now + 2 * w) st,
        { allowed := true
          limit := limit
          remaining := (limit : ℤ) - (c + cost)
          resetTime := windowStart w now + w
          retryAfter := 0
          current := c + cost
          windowStart := windowStart w now }) := by
  simp [luaCheck, hc, Nat.not_lt.mpr hle]

theorem luaCheck_denied_eq (st : RedisState) (key : String) (w limit cost : ℕ)
    (now : ℤ) (c : ℕ)
    (hc : (redisGet st (key ++ ":" ++ toString (windowStart w now)) now).getD 0 = c)
    (hgt : limit < c + cost) :
    luaCheck st key w limit cost now =
      (st,
        { allowed := false
          limit := limit
          remaining := max 0 ((limit : ℤ) - c)
          resetTime := windowStart w now + w
          retryAfter := windowStart w now + w - now
          current := c
          windowStart := windowStart w now }) := by
  simp [luaCheck, hc, hgt]

/-- Sequence of Lua checks inside one window `[W, W + w)`: each call sees
the previous counter (its expiry always outlives the window) and the
counter grows by `cost` per call. -/
theorem runLuaCalls_spec (key : String) (w limit cost : ℕ) (hw : 0 < w)
    (W : ℤ) (ts : List ℤ) :
    ∀ (st : RedisState) (c : ℕ) (e : ℤ),
      kvGet (key ++ ":" ++ toString W) st = some (c, e) →
      W + w ≤ e →
      (∀ t ∈ ts, windowStart w t = W) →
      c + ts.length * cost ≤ limit →
      (runLuaCalls st key w limit cost ts).2.map (·.allowed) =
        List.replicate ts.length true ∧
      (runLuaCalls st key w limit cost ts).2.map (·.remaining) =
        (List.range ts.length).map
          (fun i : ℕ => (limit : ℤ) - ((c : ℤ) + ((i : ℤ) + 1) * (cost : ℤ))) ∧
      ∃ c' e', kvGet (key ++ ":" ++ toString W)
          (runLuaCalls st key w limit cost ts).1 = some (c', e') ∧
        c' = c + ts.length * cost ∧ W + w ≤ e' := by
  induction ts with
  | nil =>
    intro st c e hkey _ _ _
    exact ⟨rfl, rfl, c, e, hkey, by simp, by assumption⟩
  | cons t ts ih =>
    intro st c e hkey he hts hle
    have htW : windowStart w t = W := hts t (List.mem_cons_self t ts)
    have htlt : t < W + w := by
      have := lt_windowStart_add hw t
      rwa [htW] at this
    have htge : W ≤ t := by
      have := windowStart_le hw t
      rwa [htW] at this
    have hread : (redisGet st (key ++ ":" ++ toString (windowStart w t)) t).getD 0 = c := by
      rw [htW]
      unfold redisGet
      rw [hkey]
      show (if t < e then some c else none).getD 0 = c
      rw [if_pos (lt_of_lt_of_le htlt he)]
      rfl
    have hle1 : c + cost ≤ limit := by
      have : cost ≤ (ts.length + 1) * cost := Nat.le_mul_of_pos_left _ (Nat.succ_pos _)
      simp only [List.length_cons] at hle
      omega
    have hstep := luaCheck_allowed_eq st key w limit cost t c hread hle1
    have hrun : runLuaCalls st key w limit cost (t :: ts) =
        ((runLuaCalls (luaCheck st key w limit cost t).1 key w limit cost ts).1,
          (luaCheck st key w limit cost t).2 ::
            (runLuaCalls (luaCheck st key w limit cost t).1 key w limit cost ts).2) := rfl
    have hkey1 : kvGet (key ++ ":" ++ toString W)
        (luaCheck st key w limit cost t).1 = some (c + cost, t + 2 * w) := by
      rw [hstep, htW]
      exact kvGet_kvSet_self _ _ _
    have he1 : W + w ≤ t + 2 * w := by
      have hw' : (0 : ℤ) ≤ w := by positivity
      omega
    have hle2 : (c + cost) + ts.length * cost ≤ limit := by
      simp only [List.length_cons] at hle
      calc (c + cost) + ts.length * cost = c + (ts.length + 1) * cost := by ring
        _ ≤ limit := hle
    obtain ⟨hall, hrem, c', e', hkey', hc', he'⟩ :=
      ih (luaCheck st key w limit cost t).1 (c + cost) (t + 2 * w) hkey1 he1
        (fun t' ht' => hts t' (List.mem_cons_of_mem t ht')) hle2
    refine ⟨?_, ?_, c', e', ?_, ?_, he'⟩
    · rw [hrun]
      simp only [List.map_cons, hall]
      simp only [hstep, List.length_cons, List.replicate_succ]
    · rw [hrun]
      simp only [List.map_cons, hrem]
      simp only [hstep, List.length_cons]
      rw [List.range_succ_eq_map, List.map_cons, List.map_map]
      congr 1
      · push_cast; ring
      · apply List.map_congr_left
        intro i _
        simp only [Function.comp_apply]
        push_cast; ring
    · rw [hrun]; exact hkey'
    · rw [hc']
      simp only [List.length_cons]
      ring

/-- C1 counterexample: for `RateLimitConfig(requests_per_window=3,
window_seconds=7200)` the claim fails.  Four calls at 3601 s, 3901 s,
4201 s and 4501 s all lie within the window `[0, 7200)`, yet all four
return `allowed=true`: because `window_seconds > 3600`, the in-memory
cleanup ("keep only last hour") deletes the live window record mid-window
and the counter restarts from zero, so the fourth call in the same window
is NOT rejected. -/
theorem checkRateLimit_quota_counterexample :
    ((checkRateLimit ⟨[], 0⟩ "u" ⟨3, 7200, 1, "ratelimit"⟩ 3601).2.allowed = true) ∧
    ((checkRateLimit (checkRateLimit ⟨[], 0⟩ "u" ⟨3, 7200, 1, "ratelimit"⟩ 3601).1
        "u" ⟨3, 7200, 1, "ratelimit"⟩ 3901).2.allowed = true) ∧
    ((checkRateLimit (checkRateLimit (checkRateLimit ⟨[], 0⟩ "u"
        ⟨3, 7200, 1, "ratelimit"⟩ 3601).1
        "u" ⟨3, 7200, 1, "ratelimit"⟩ 3901).1 "u" ⟨3, 7200, 1, "ratelimit"⟩
        4201).2.allowed = true) ∧
    ((checkRateLimit (checkRateLimit (checkRateLimit (checkRateLimit ⟨[], 0⟩ "u"
        ⟨3, 7200, 1, "ratelimit"⟩ 3601).1
        "u" ⟨3, 7200, 1, "ratelimit"⟩ 3901).1 "u" ⟨3, 7200, 1, "ratelimit"⟩ 4201).1
        "u" ⟨3, 7200, 1, "ratelimit"⟩ 4501).2.allowed = true) := by decide

/-- C1 (amended): starting with no counter for the current window,
`requests_per_window` cost-1 calls are all allowed with `remaining`
counting down `limit-1, …, 0`, and the next call is rejected with
`remaining = 0` — for the in-memory limiter when the calls share one
timestamp inside the window (its hourly sweep can otherwise reset a
window longer than 3600 s, see the counterexample), and for the Redis Lua
script at arbitrary call times inside one window. -/
theorem checkRateLimit_quota_within_window :
    (∀ (s : InMemoryState) (identifier : String) (cfg : RateLimitConfig) (now : ℤ),
      cfg.cost = 1 → 0 < cfg.requestsPerWindow →
      kvGet (getWindowKey identifier cfg.windowSeconds now) s.storage = none →
      (runCalls s identifier cfg now cfg.requestsPerWindow).2.map (·.allowed) =
        List.replicate cfg.requestsPerWindow true ∧
      (runCalls s identifier cfg now cfg.requestsPerWindow).2.map (·.remaining) =
        (List.range cfg.requestsPerWindow).map
          (fun i : ℕ => (cfg.requestsPerWindow : ℤ) - ((i : ℤ) + 1)) ∧
      (checkRateLimit (runCalls s identifier cfg now cfg.requestsPerWindow).1
          identifier cfg now).2.allowed = false ∧
      (checkRateLimit (runCalls s identifier cfg now cfg.requestsPerWindow).1
          identifier cfg now).2.remaining = 0) ∧
    (∀ (st : RedisState) (key : String) (w limit : ℕ) (W tExtra : ℤ) (ts : List ℤ),
      0 < w → 0 < limit →
      kvGet (key ++ ":" ++ toString W) st = none →
      (∀ t ∈ ts, windowStart w t = W) →
      windowStart w tExtra = W →
      ts.length = limit →
      (runLuaCalls st key w limit 1 ts).2.map (·.allowed) =
        List.replicate limit true ∧
      (runLuaCalls st key w limit 1 ts).2.map (·.remaining) =
        (List.range limit).map (fun i : ℕ => (limit : ℤ) - ((i : ℤ) + 1)) ∧
      (luaCheck (runLuaCalls st key w limit 1 ts).1 key w limit 1 tExtra).2.allowed
        = false ∧
      (luaCheck (runLuaCalls st key w limit 1 ts).1 key w limit 1 tExtra).2.remaining
        = 0) := by
  constructor
  · intro s identifier cfg now hcost hlim hkey
    obtain ⟨n, hn⟩ : ∃ n, cfg.requestsPerWindow = n + 1 :=
      ⟨cfg.requestsPerWindow - 1, by omega⟩
    have hkeyc : kvGet (getWindowKey identifier cfg.windowSeconds now)
        (cleanupOldWindows s now).storage = none := cleanup_kvGet_none hkey
    have hle1 : cfg.cost ≤ cfg.requestsPerWindow := by omega
    have hstep : checkRateLimit s identifier cfg now =
        (⟨kvSet (getWindowKey identifier cfg.windowSeconds now)
            (⟨cfg.cost, now, identifier, some now⟩ : WindowData)
            (kvSet (getWindowKey identifier cfg.windowSeconds now)
              (⟨0, now, identifier, none⟩ : WindowData)
              (cleanupOldWindows s now).storage),
          (cleanupOldWindows s now).lastCleanup⟩,
          { allowed := true
            limit := cfg.requestsPerWindow
            remaining := (cfg.requestsPerWindow : ℤ) - cfg.cost
            resetTime := resetTimeOf cfg.windowSeconds now
            retryAfter := 0
            cost := cfg.cost
            identifier := identifier
            windowKey := getWindowKey identifier cfg.windowSeconds now }) := by
      unfold checkRateLimit
      exact checkCore_absent_allowed _ identifier cfg now hkeyc hle1
    have hrc1 : RecentlyCleaned
        (⟨kvSet (getWindowKey identifier cfg.windowSeconds now)
            (⟨cfg.cost, now, identifier, some now⟩ : WindowData)
            (kvSet (getWindowKey identifier cfg.windowSeconds now)
              (⟨0, now, identifier, none⟩ : WindowData)
              (cleanupOldWindows s now).storage),
          (cleanupOldWindows s now).lastCleanup⟩ : InMemoryState) now :=
      cleanup_recentlyCleaned s now
    have hkey1 : kvGet (getWindowKey identifier cfg.windowSeconds now)
        (⟨kvSet (getWindowKey identifier cfg.windowSeconds now)
            (⟨cfg.cost, now, identifier, some now⟩ : WindowData)
            (kvSet (getWindowKey identifier cfg.windowSeconds now)
              (⟨0, now, identifier, none⟩ : WindowData)
              (cleanupOldWindows s now).storage),
          (cleanupOldWindows s now).lastCleanup⟩ : InMemoryState).storage =
        some (⟨cfg.cost, now, identifier, some now⟩ : WindowData) :=
      kvGet_kvSet_self _ _ _
    have hcount1 : (⟨cfg.cost, now, identifier, some now⟩ : WindowData).count +
        n * cfg.cost ≤ cfg.requestsPerWindow := by
      show cfg.cost + n * cfg.cost ≤ cfg.requestsPerWindow
      rw [hcost]
      omega
    obtain ⟨hall, hrem, hrcn, d', hd', hdc⟩ :=
      runCalls_spec identifier cfg now n _ _ hrc1 hkey1 hcount1
    have hrun : runCalls s identifier cfg now (n + 1) =
        ((runCalls (checkRateLimit s identifier cfg now).1 identifier cfg now n).1,
          (checkRateLimit s identifier cfg now).2 ::
            (runCalls (checkRateLimit s identifier cfg now).1 identifier cfg now n).2)
      := rfl
    rw [hn, hrun, hstep]
    have hdenied : checkCore
        (runCalls _ identifier cfg now n).1 identifier cfg now =
        ((runCalls _ identifier cfg now n).1,
          { allowed := false
            limit := cfg.requestsPerWindow
            remaining := max 0 ((cfg.requestsPerWindow : ℤ) - d'.count)
            resetTime := resetTimeOf cfg.windowSeconds now
            retryAfter := resetTimeOf cfg.windowSeconds now - now
            cost := cfg.cost
            identifier := identifier
            windowKey := getWindowKey identifier cfg.windowSeconds now }) :=
      checkCore_denied _ identifier cfg now d' hd'
        (by simp only [hdc, hcost, Nat.mul_one]; omega)
    refine ⟨?_, ?_, ?_, ?_⟩
    · simp only [List.map_cons, hall, List.replicate_succ]
    · simp only [List.map_cons, hrem]
      rw [List.range_succ_eq_map, List.map_cons, List.map_map]
      congr 1
      · rw [hcost]; push_cast; omega
      · apply List.map_congr_left
        intro i _
        simp only [Function.comp_apply, hcost]
        push_cast; omega
    · unfold checkRateLimit
      rw [cleanup_noop hrcn, hdenied]
    · unfold checkRateLimit
      rw [cleanup_noop hrcn, hdenied]
      show max 0 ((cfg.requestsPerWindow : ℤ) - d'.count) = 0
      simp only [hdc, hcost]
      push_cast
      omega
  · intro st key w limit W tExtra ts hw hlim hkey hts htE hlen
    obtain ⟨n, hn⟩ : ∃ n, limit = n + 1 := ⟨limit - 1, by omega⟩
    obtain ⟨t1, ts', rfl⟩ : ∃ t1 ts', ts = t1 :: ts' := by
      cases ts with
      | nil => rw [hn] at hlen; simp at hlen
      | cons a l => exact ⟨a, l, rfl⟩
    have ht1W : windowStart w t1 = W := hts t1 (List.mem_cons_self t1 ts')
    have hread : (redisGet st (key ++ ":" ++ toString (windowStart w t1)) t1).getD 0
        = 0 := by
      rw [ht1W]
      unfold redisGet
      rw [hkey]
      rfl
    have hle1 : 0 + 1 ≤ limit := by omega
    have hstep := luaCheck_allowed_eq st key w limit 1 t1 0 hread hle1
    have hkey1 : kvGet (key ++ ":" ++ toString W)
        (luaCheck st key w limit 1 t1).1 = some (0 + 1, t1 + 2 * w) := by
      rw [hstep, ht1W]
      exact kvGet_kvSet_self _ _ _
    have he1 : W + w ≤ t1 + 2 * w := by
      have htge : W ≤ t1 := by
        have := windowStart_le hw t1
        rwa [ht1W] at this
      have hw' : (0 : ℤ) ≤ w := by positivity
      omega
    have hlen' : ts'.length = n := by
      rw [hn] at hlen
      simpa using hlen
    have hcount1 : (0 + 1) + ts'.length * 1 ≤ limit := by omega
    obtain ⟨hall, hrem, c', e', hkey', hc', he'⟩ :=
      runLuaCalls_spec key w limit 1 hw W ts' _ _ _ hkey1 he1
        (fun t' ht' => hts t' (List.mem_cons_of_mem t1 ht')) hcount1
    have hrun : runLuaCalls st key w limit 1 (t1 :: ts') =
        ((runLuaCalls (luaCheck st key w limit 1 t1).1 key w limit 1 ts').1,
          (luaCheck st key w limit 1 t1).2 ::
            (runLuaCalls (luaCheck st key w limit 1 t1).1 key w limit 1 ts').2) := rfl
    have hc'' : c' = limit := by
      rw [hc', hlen', hn]
      omega
    have hreadE : (redisGet (runLuaCalls (luaCheck st key w limit 1 t1).1
        key w limit 1 ts').1 (key ++ ":" ++ toString (windowStart w tExtra))
        tExtra).getD 0 = c' := by
      rw [htE]
      unfold redisGet
      rw [hkey']
      have htElt : tExtra < W + w := by
        have := lt_windowStart_add hw tExtra
        rwa [htE] at this
      show (if tExtra < e' then some c' else none).getD 0 = c'
      rw [if_pos (lt_of_lt_of_le htElt he')]
      rfl
    have hdenied := luaCheck_denied_eq _ key w limit 1 tExtra c' hreadE
      (by rw [hc'']; omega)
    rw [hrun]
    refine ⟨?_, ?_, ?_, ?_⟩
    · simp only [List.map_cons, hall]
      simp only [hstep]
      rw [hlen', hn, List.replicate_succ]
    · simp only [List.map_cons, hrem]
      simp only [hstep]
      rw [hlen', hn]
      rw [List.range_succ_eq_map, List.map_cons, List.map_map]
      congr 1
      apply List.map_congr_left
      intro i _
      simp only [Function.comp_apply]
      push_cast
      ring
    · rw [hdenied]
    · rw [hdenied]
      show max 0 ((limit : ℤ) - c') = 0
      rw [hc'']
      simp

/-- C1 witness: the concrete scenario of the amended claim at
`requests_per_window = 3`, `window_seconds = 60`: three calls at one
instant give `remaining` 2, 1, 0 and the fourth is rejected with
`remaining = 0`; likewise for the Lua script at times 0, 10, 20 (+59). -/
theorem checkRateLimit_quota_within_window_witness :
    ((runCalls ⟨[], 0⟩ "user-A" ⟨3, 60, 1, "ratelimit"⟩ 0 3).2.map (·.allowed) =
        List.replicate 3 true ∧
      (runCalls ⟨[], 0⟩ "user-A" ⟨3, 60, 1, "ratelimit"⟩ 0 3).2.map (·.remaining) =
        (List.range 3).map (fun i : ℕ => ((3 : ℕ) : ℤ) - ((i : ℤ) + 1)) ∧
      (checkRateLimit (runCalls ⟨[], 0⟩ "user-A" ⟨3, 60, 1, "ratelimit"⟩ 0 3).1
          "user-A" ⟨3, 60, 1, "ratelimit"⟩ 0).2.allowed = false ∧
      (checkRateLimit (runCalls ⟨[], 0⟩ "user-A" ⟨3, 60, 1, "ratelimit"⟩ 0 3).1
          "user-A" ⟨3, 60, 1, "ratelimit"⟩ 0).2.remaining = 0) ∧
    ((runCalls ⟨[], 0⟩ "user-A" ⟨3, 60, 1, "ratelimit"⟩ 0 3).2.map (·.remaining) =
        [2, 1, 0]) ∧
    ((runLuaCalls [] "ratelimit:h" 60 3 1 [0, 10, 20]).2.map (·.allowed) =
        List.replicate 3 true ∧
      (runLuaCalls [] "ratelimit:h" 60 3 1 [0, 10, 20]).2.map (·.remaining) =
        (List.range 3).map (fun i : ℕ => ((3 : ℕ) : ℤ) - ((i : ℤ) + 1)) ∧
      (luaCheck (runLuaCalls [] "ratelimit:h" 60 3 1 [0, 10, 20]).1
          "ratelimit:h" 60 3 1 59).2.allowed = false ∧
      (luaCheck (runLuaCalls [] "ratelimit:h" 60 3 1 [0, 10, 20]).1
          "ratelimit:h" 60 3 1 59).2.remaining = 0) :=
  ⟨checkRateLimit_quota_within_window.1 ⟨[], 0⟩ "user-A" ⟨3, 60, 1, "ratelimit"⟩ 0
      rfl (by decide) (by decide),
    by decide,
    checkRateLimit_quota_within_window.2 [] "ratelimit:h" 60 3 0 59 [0, 10, 20]
      (by decide) (by decide) (by decide) (by decide) (by decide) (by decide)⟩

theorem checkCore_denied_count (s1 : InMemoryState) (identifier : String)
    (cfg : RateLimitConfig) (now : ℤ)
    (hgt : cfg.requestsPerWindow <
      countAt s1.storage (getWindowKey identifier cfg.windowSeconds now) + cfg.cost) :
    (checkCore s1 identifier cfg now).2.allowed = false ∧
    (checkCore s1 identifier cfg now).2.retryAfter =
      resetTimeOf cfg.windowSeconds now - now ∧
    (checkCore s1 identifier cfg now).2.remaining =
      max 0 ((cfg.requestsPerWindow : ℤ) -
        countAt s1.storage (getWindowKey identifier cfg.windowSeconds now)) ∧
    countAt (checkCore s1 identifier cfg now).1.storage
        (getWindowKey identifier cfg.windowSeconds now) =
      countAt s1.storage (getWindowKey identifier cfg.windowSeconds now) ∧
    (checkCore s1 identifier cfg now).1.lastCleanup = s1.lastCleanup := by
  cases h : kvGet (getWindowKey identifier cfg.windowSeconds now) s1.storage with
  | none =>
    have hcount : countAt s1.storage (getWindowKey identifier cfg.windowSeconds now)
        = 0 := by simp [countAt, h]
    rw [hcount] at hgt
    rw [Nat.zero_add] at hgt
    simp [checkCore, h, kvGet_kvSet_self, hgt, countAt, hcount]
  | some d =>
    have hcount : countAt s1.storage (getWindowKey identifier cfg.windowSeconds now)
        = d.count := by simp [countAt, h]
    rw [hcount] at hgt
    rw [checkCore_denied s1 identifier cfg now d h hgt]
    simp [countAt, h, hcount]

theorem checkCore_allowed_count (s1 : InMemoryState) (identifier : String)
    (cfg : RateLimitConfig) (now : ℤ)
    (hle : countAt s1.storage (getWindowKey identifier cfg.windowSeconds now) +
      cfg.cost ≤ cfg.requestsPerWindow) :
    (checkCore s1 identifier cfg now).2.allowed = true := by
  cases h : kvGet (getWindowKey identifier cfg.windowSeconds now) s1.storage with
  | none =>
    have hc : cfg.cost ≤ cfg.requestsPerWindow := by
      have : countAt s1.storage (getWindowKey identifier cfg.windowSeconds now) = 0 :=
        by simp [countAt, h]
      omega
    rw [checkCore_absent_allowed s1 identifier cfg now h hc]
  | some d =>
    have hc : d.count + cfg.cost ≤ cfg.requestsPerWindow := by
      have : countAt s1.storage (getWindowKey identifier cfg.windowSeconds now)
          = d.count := by simp [countAt, h]
      omega
    rw [checkCore_allowed s1 identifier cfg now d h hc]

theorem retry_bounds_arith {w : ℕ} (hw : 0 < w) (now : ℤ) :
    0 < windowStart w now + w - now ∧ windowStart w now + w - now ≤ w := by
  have h1 := lt_windowStart_add hw now
  have h2 := windowStart_le hw now
  omega

/-- C4: when the current window counter plus `cost` would exceed
`requests_per_window`, `check_rate_limit` rejects with
`retry_after = window_end - now` and does not increment the counter — for
the in-memory limiter (counter read after its sweep) and for the Redis Lua
script (whose state is returned untouched); and a config with
`cost > requests_per_window` is rejected on every call by both. -/
theorem checkRateLimit_reject_no_increment
    (s : InMemoryState) (st : RedisState) (identifier key : String)
    (cfg : RateLimitConfig) (now : ℤ) (c : ℕ)
    (hgtMem : cfg.requestsPerWindow <
      countAt (cleanupOldWindows s now).storage
        (getWindowKey identifier cfg.windowSeconds now) + cfg.cost)
    (hcLua : (redisGet st
        (key ++ ":" ++ toString (windowStart cfg.windowSeconds now)) now).getD 0 = c)
    (hgtLua : cfg.requestsPerWindow < c + cfg.cost) :
    (checkRateLimit s identifier cfg now).2.allowed = false ∧
    (checkRateLimit s identifier cfg now).2.retryAfter =
      (windowStart cfg.windowSeconds now + cfg.windowSeconds) - now ∧
    countAt (checkRateLimit s identifier cfg now).1.storage
        (getWindowKey identifier cfg.windowSeconds now) =
      countAt (cleanupOldWindows s now).storage
        (getWindowKey identifier cfg.windowSeconds now) ∧
    (luaCheck st key cfg.windowSeconds cfg.requestsPerWindow cfg.cost now).1 = st ∧
    (luaCheck st key cfg.windowSeconds cfg.requestsPerWindow cfg.cost now).2.allowed
      = false ∧
    (luaCheck st key cfg.windowSeconds cfg.requestsPerWindow cfg.cost now).2.retryAfter
      = (windowStart cfg.windowSeconds now + cfg.windowSeconds) - now ∧
    (∀ s' : InMemoryState, cfg.requestsPerWindow < cfg.cost →
      (checkRateLimit s' identifier cfg now).2.allowed = false) ∧
    (∀ st' : RedisState, cfg.requestsPerWindow < cfg.cost →
      (luaCheck st' key cfg.windowSeconds cfg.requestsPerWindow cfg.cost now).2.allowed
        = false) := by
  obtain ⟨hmem1, hmem2, _hmem3, hmem4, _hmem5⟩ :=
    checkCore_denied_count (cleanupOldWindows s now) identifier cfg now hgtMem
  have hlua := luaCheck_denied_eq st key cfg.windowSeconds cfg.requestsPerWindow
    cfg.cost now c hcLua hgtLua
  refine ⟨hmem1, ?_, hmem4, ?_, ?_, ?_, ?_, ?_⟩
  · rw [show (checkRateLimit s identifier cfg now).2.retryAfter =
        (checkCore (cleanupOldWindows s now) identifier cfg now).2.retryAfter from rfl,
      hmem2, resetTimeOf_eq]
  · rw [hlua]
  · rw [hlua]
  · rw [hlua]
  · intro s' hc
    have hgt' : cfg.requestsPerWindow <
        countAt (cleanupOldWindows s' now).storage
          (getWindowKey identifier cfg.windowSeconds now) + cfg.cost := by omega
    exact (checkCore_denied_count (cleanupOldWindows s' now) identifier cfg now hgt').1
  · intro st' hc
    have hgt' : cfg.requestsPerWindow <
        (redisGet st' (key ++ ":" ++ toString (windowStart cfg.windowSeconds now))
          now).getD 0 + cfg.cost := by omega
    have := luaCheck_denied_eq st' key cfg.windowSeconds cfg.requestsPerWindow
      cfg.cost now _ rfl hgt'
    rw [this]

/-- C4 witness at a concrete rejected call: limit 2, cost 3, empty states. -/
theorem checkRateLimit_reject_no_increment_witness :
    (checkRateLimit ⟨[], 0⟩ "u" ⟨2, 60, 3, "ratelimit"⟩ 7).2.allowed = false ∧
    (checkRateLimit ⟨[], 0⟩ "u" ⟨2, 60, 3, "ratelimit"⟩ 7).2.retryAfter =
      (windowStart 60 7 + 60) - 7 ∧
    countAt (checkRateLimit ⟨[], 0⟩ "u" ⟨2, 60, 3, "ratelimit"⟩ 7).1.storage
        (getWindowKey "u" 60 7) =
      countAt (cleanupOldWindows ⟨[], 0⟩ 7).storage (getWindowKey "u" 60 7) ∧
    (luaCheck [] "ratelimit:h" 60 2 3 7).1 = [] ∧
    (luaCheck [] "ratelimit:h" 60 2 3 7).2.allowed = false ∧
    (luaCheck [] "ratelimit:h" 60 2 3 7).2.retryAfter = (windowStart 60 7 + 60) - 7 ∧
    (∀ s' : InMemoryState, (2 : ℕ) < 3 →
      (checkRateLimit s' "u" ⟨2, 60, 3, "ratelimit"⟩ 7).2.allowed = false) ∧
    (∀ st' : RedisState, (2 : ℕ) < 3 →
      (luaCheck st' "ratelimit:h" 60 2 3 7).2.allowed = false) :=
  checkRateLimit_reject_no_increment ⟨[], 0⟩ [] "u" "ratelimit:h"
    ⟨2, 60, 3, "ratelimit"⟩ 7 0 (by decide) (by decide) (by decide)

/-- C9: every rejected call reports `0 < retry_after ≤ window_seconds`,
for the in-memory limiter and for the Redis Lua script. -/
theorem retryAfter_bounds (s : InMemoryState) (st : RedisState)
    (identifier key : String) (cfg : RateLimitConfig) (limit cost : ℕ) (now : ℤ)
    (hw : 0 < cfg.windowSeconds) :
    ((checkRateLimit s identifier cfg now).2.allowed = false →
      0 < (checkRateLimit s identifier cfg now).2.retryAfter ∧
      (checkRateLimit s identifier cfg now).2.retryAfter ≤ cfg.windowSeconds) ∧
    ((luaCheck st key cfg.windowSeconds limit cost now).2.allowed = false →
      0 < (luaCheck st key cfg.windowSeconds limit cost now).2.retryAfter ∧
      (luaCheck st key cfg.windowSeconds limit cost now).2.retryAfter ≤
        cfg.windowSeconds) := by
  have harith := retry_bounds_arith hw now
  constructor
  · intro hfalse
    by_cases hc : cfg.requestsPerWindow <
        countAt (cleanupOldWindows s now).storage
          (getWindowKey identifier cfg.windowSeconds now) + cfg.cost
    · obtain ⟨_, h2, _, _, _⟩ :=
        checkCore_denied_count (cleanupOldWindows s now) identifier cfg now hc
      rw [show (checkRateLimit s identifier cfg now).2.retryAfter =
          (checkCore (cleanupOldWindows s now) identifier cfg now).2.retryAfter
          from rfl, h2, resetTimeOf_eq]
      exact harith
    · exfalso
      have := checkCore_allowed_count (cleanupOldWindows s now) identifier cfg now
        (by omega)
      rw [show (checkRateLimit s identifier cfg now).2.allowed =
          (checkCore (cleanupOldWindows s now) identifier cfg now).2.allowed
          from rfl, this] at hfalse
      simp at hfalse
  · intro hfalse
    by_cases hc : limit < (redisGet st
        (key ++ ":" ++ toString (windowStart cfg.windowSeconds now)) now).getD 0 + cost
    · have hlua := luaCheck_denied_eq st key cfg.windowSeconds limit cost now _ rfl hc
      rw [hlua]
      exact harith
    · exfalso
      have hlua := luaCheck_allowed_eq st key cfg.windowSeconds limit cost now _ rfl
        (by omega)
      rw [hlua] at hfalse
      simp at hfalse

/-- C9 witness at a concrete rejected call. -/
theorem retryAfter_bounds_witness :
    (0 : ℕ) < 60 ∧
    ((checkRateLimit ⟨[], 0⟩ "u" ⟨2, 60, 3, "ratelimit"⟩ 7).2.allowed = false →
      0 < (checkRateLimit ⟨[], 0⟩ "u" ⟨2, 60, 3, "ratelimit"⟩ 7).2.retryAfter ∧
      (checkRateLimit ⟨[], 0⟩ "u" ⟨2, 60, 3, "ratelimit"⟩ 7).2.retryAfter ≤ 60) ∧
    ((luaCheck [] "ratelimit:h" 60 2 3 7).2.allowed = false →
      0 < (luaCheck [] "ratelimit:h" 60 2 3 7).2.retryAfter ∧
      (luaCheck [] "ratelimit:h" 60 2 3 7).2.retryAfter ≤ 60) :=
  ⟨by decide,
    (retryAfter_bounds ⟨[], 0⟩ [] "u" "ratelimit:h" ⟨2, 60, 3, "ratelimit"⟩ 2 3 7
      (by decide)).1,
    (retryAfter_bounds ⟨[], 0⟩ [] "u" "ratelimit:h" ⟨2, 60, 3, "ratelimit"⟩ 2 3 7
      (by decide)).2⟩

/-- C5 counterexample: `get_usage` DOES mutate stored window counters.
With a record `"x:0"` (count 5) and a last sweep at 0, a `get_usage` call
at `now = 4000` triggers `_cleanup_old_windows`, which deletes the record
(its window start 0 is more than 3600 s old). -/
theorem getUsage_mutates_counterexample :
    kvGet "x:0" ((getUsage ⟨[("x:0", ⟨5, 0, "x", none⟩)], 0⟩ "y"
        ⟨100, 60, 1, "ratelimit"⟩ 4000).1.storage) = none ∧
    kvGet "x:0" ([("x:0", (⟨5, 0, "x", none⟩ : WindowData))]) =
      some (⟨5, 0, "x", none⟩ : WindowData) := by decide

/-- C5 (amended): `get_usage` never alters or increments a retained
counter — its only state effect is the shared expiry sweep, which can
delete records older than an hour (so its post-state storage is a
sublist of the pre-state storage) — and an immediately following
`check_rate_limit` at the same timestamp (for any identifier and config)
returns exactly what it would have returned had `get_usage` not been
called. -/
theorem getUsage_frame (s : InMemoryState) (identifier identifier2 : String)
    (cfg cfg2 : RateLimitConfig) (now : ℤ) :
    List.Sublist (getUsage s identifier cfg now).1.storage s.storage ∧
    checkRateLimit (getUsage s identifier cfg now).1 identifier2 cfg2 now =
      checkRateLimit s identifier2 cfg2 now := by
  rw [getUsage_state]
  exact ⟨cleanup_storage_sublist s now, checkRateLimit_cleanup s identifier2 cfg2 now⟩

/-- C6 counterexample: the window key of the in-memory limiter omits the
namespace, so two configs differing only in namespace SHARE a counter:
with limit 1, a call under namespace `"nsA"` makes the next call under
`"nsB"` rejected, although from a fresh state the `"nsB"` call is
allowed. -/
theorem namespace_shared_counterexample :
    ((checkRateLimit ⟨[], 0⟩ "u" ⟨1, 60, 1, "nsA"⟩ 0).2.allowed = true) ∧
    ((checkRateLimit (checkRateLimit ⟨[], 0⟩ "u" ⟨1, 60, 1, "nsA"⟩ 0).1 "u"
        ⟨1, 60, 1, "nsB"⟩ 0).2.allowed = false) ∧
    ((checkRateLimit ⟨[], 0⟩ "u" ⟨1, 60, 1, "nsB"⟩ 0).2.allowed = true) := by decide

theorem luaCheck_kvGet_other (st : RedisState) (key : String) (w l c : ℕ)
    (now : ℤ) (k' : String)
    (hne : k' ≠ key ++ ":" ++ toString (windowStart w now)) :
    kvGet k' (luaCheck st key w l c now).1 = kvGet k' st := by
  unfold luaCheck
  dsimp only
  split
  · rfl
  · exact kvGet_kvSet_ne _ _ hne

theorem luaCheck_reply_of_read (st st' : RedisState) (key : String) (w l c : ℕ)
    (now : ℤ)
    (h : kvGet (key ++ ":" ++ toString (windowStart w now)) st' =
      kvGet (key ++ ":" ++ toString (windowStart w now)) st) :
    (luaCheck st' key w l c now).2 = (luaCheck st key w l c now).2 := by
  simp only [luaCheck, redisGet]
  rw [h]
  split <;> rfl

theorem string_append_right_cancel {a b t : String} (h : a ++ t = b ++ t) :
    a = b := by
  have hd : (a ++ t).data = (b ++ t).data := congrArg String.data h
  rw [String.data_append, String.data_append] at hd
  exact String.ext (List.append_cancel_right hd)

/-- C6 (amended): the in-memory limiter ignores the namespace entirely
(calls under two namespaces read and update the same counter — see the
counterexample), while the Redis limiter keys by
`namespace:md5(identifier):window_start`, so for the same identifier and
otherwise equal configs, a check under one namespace leaves the outcome
of a check under a different namespace untouched. -/
theorem namespace_keying (s : InMemoryState) (identifier : String)
    (h : String → String) (st : RedisState) (l w c : ℕ) (n1 n2 : String)
    (now : ℤ) (hne : n1 ≠ n2) :
    (checkRateLimit s identifier ⟨l, w, c, n1⟩ now =
      checkRateLimit s identifier ⟨l, w, c, n2⟩ now) ∧
    ((luaCheck ((luaCheck st (redisKeyOf h identifier n1) w l c now).1)
        (redisKeyOf h identifier n2) w l c now).2 =
      (luaCheck st (redisKeyOf h identifier n2) w l c now).2) := by
  constructor
  · rfl
  · apply luaCheck_reply_of_read
    apply luaCheck_kvGet_other
    unfold redisKeyOf
    intro heq
    apply hne
    have h1 : n2 ++ (":" ++ (h identifier ++ (":" ++ toString (windowStart w now)))) =
        n1 ++ (":" ++ (h identifier ++ (":" ++ toString (windowStart w now)))) := by
      simpa only [String.append_assoc] using heq
    exact (string_append_right_cancel h1).symm

/-- C6 witness: Redis-side independence at a concrete state. -/
theorem namespace_keying_witness :
    (checkRateLimit ⟨[], 0⟩ "u" ⟨1, 60, 1, "nsA"⟩ 0 =
      checkRateLimit ⟨[], 0⟩ "u" ⟨1, 60, 1, "nsB"⟩ 0) ∧
    ((luaCheck ((luaCheck [] (redisKeyOf (fun _ => "h16") "u" "nsA") 60 1 1 0).1)
        (redisKeyOf (fun _ => "h16") "u" "nsB") 60 1 1 0).2 =
      (luaCheck [] (redisKeyOf (fun _ => "h16") "u" "nsB") 60 1 1 0).2) :=
  namespace_keying ⟨[], 0⟩ "u" (fun _ => "h16") [] 1 60 1 "nsA" "nsB" 0
    (by decide)

/-- C3: the code violates the fail-open contract.  On the first call
(no cached script sha) with the Redis backend unreachable,
`_ensure_script_loaded` raises OUTSIDE the `try` of `check_rate_limit`,
so the connection error propagates to the caller instead of returning an
`allowed=true` fallback.  (Errors raised by `EVALSHA` itself ARE caught
and fail open — second conjunct.) -/
theorem redisCheck_script_load_error_propagates :
    (redisCheckRateLimit (fun _ => "d41d8cd98f00b204")
        ⟨Except.error "connection refused", fun _ => EvalOutcome.runs⟩ 8 none []
        "user" ⟨100, 60, 1, "ratelimit"⟩ 0 =
      Except.error "connection refused") ∧
    (redisCheckRateLimit (fun _ => "d41d8cd98f00b204")
        ⟨Except.ok "sha1", fun _ => EvalOutcome.fails "connection refused"⟩ 8 none []
        "user" ⟨100, 60, 1, "ratelimit"⟩ 0 =
      Except.ok (some "sha1", [],
        { allowed := true
          limit := 100
          remaining := 100
          resetTime := 60
          retryAfter := 0
          cost := 1
          identifier := "user"
          windowKey := "fallback" })) := by
  constructor
  · rfl
  · rfl

theorem dedupByText_sublist :
    ∀ (l : List SearchResult) (seen : List String),
      List.Sublist (dedupByText l seen) l := by
  intro l
  induction l with
  | nil => intro seen; simp [dedupByText]
  | cons r rest ih =>
    intro seen
    unfold dedupByText
    split
    · exact List.Sublist.cons₂ r (ih _)
    · exact List.Sublist.cons r (ih _)

theorem dedupByText_mem :
    ∀ (l : List SearchResult) (seen : List String) (r : SearchResult),
      r ∈ dedupByText l seen → r.text ≠ "" ∧ r.text ∉ seen := by
  intro l
  induction l with
  | nil => intro seen r hr; simp [dedupByText] at hr
  | cons r0 rest ih =>
    intro seen r hr
    unfold dedupByText at hr
    split at hr
    · rename_i hkeep
      rcases List.mem_cons.mp hr with h | h
      · subst h
        exact ⟨hkeep.1, hkeep.2⟩
      · have := ih _ r h
        exact ⟨this.1, fun hmem => this.2 (List.mem_cons_of_mem _ hmem)⟩
    · exact ih _ r hr

theorem dedupByText_pairwise :
    ∀ (l : List SearchResult) (seen : List String),
      (dedupByText l seen).Pairwise (fun a b => a.text ≠ b.text) := by
  intro l
  induction l with
  | nil => intro seen; simp [dedupByText]
  | cons r0 rest ih =>
    intro seen
    unfold dedupByText
    split
    · refine List.Pairwise.cons ?_ (ih _)
      intro b hb
      have := (dedupByText_mem _ _ b hb).2
      intro heq
      exact this (heq ▸ List.mem_cons_self _ _)
    · exact ih _

/-- C7: `search_all` returns a subset of the merged per-collection search
results, sorted by score descending and pairwise distinct by exact text;
concretely, the same text in two collections yields 2 per-collection
results which dedup reduces to 1. -/
theorem searchAll_merge_dedup_sort :
    (∀ (α : Type) (sim : String → String → ℚ) (m : VectorStoreManager α)
        (query : String) (names : Option (List String)) (k : ℕ) (thr : ℚ),
      List.Sorted (fun a b : SearchResult => b.score ≤ a.score)
        (searchAll sim m query names k thr) ∧
      (searchAll sim m query names k thr).Pairwise (fun a b => a.text ≠ b.text) ∧
      ∀ r ∈ searchAll sim m query names k thr,
        r ∈ mergedResults sim m query names k thr) ∧
    ((mergedResults sameTextSim twoCollectionManager "T" none 5 0).length = 2 ∧
      searchAll sameTextSim twoCollectionManager "T" none 5 0 =
        [⟨"T", 1, "c1"⟩]) := by
  constructor
  · intro α sim m query names k thr
    refine ⟨?_, dedupByText_pairwise _ _, ?_⟩
    · exact List.Pairwise.sublist (dedupByText_sublist _ _)
        (List.sorted_insertionSort _ _)
    · intro r hr
      have h1 : r ∈ List.insertionSort (fun a b : SearchResult => b.score ≤ a.score)
          (mergedResults sim m query names k thr) :=
        (dedupByText_sublist _ _).subset hr
      exact (List.perm_insertionSort _ _).subset h1
  · exact ⟨by decide, by decide⟩

/-- C10: no result with empty `"text"` ever appears in `search_all`
output (the `if text` guard of the dedup loop drops them); concretely, an
empty-text hit with score 1 above the threshold is the sole merged result
and is still omitted. -/
theorem searchAll_omits_empty_text :
    (∀ (α : Type) (sim : String → String → ℚ) (m : VectorStoreManager α)
        (query : String) (names : Option (List String)) (k : ℕ) (thr : ℚ)
        (r : SearchResult),
      r ∈ searchAll sim m query names k thr → r.text ≠ "") ∧
    (mergedResults (fun _ _ => 1) emptyTextManager "q" none 5 0 =
        [⟨"", 1, "c"⟩] ∧
      searchAll (fun _ _ => 1) emptyTextManager "q" none 5 0 = []) := by
  constructor
  · intro α sim m query names k thr r hr
    exact (dedupByText_mem _ _ r hr).1
  · exact ⟨by decide, by decide⟩

/-- C2: the invariant `len(metadata) == index.total_vector_count` is
broken by `add_document` for a chunk whose text is blank:
`embed_texts` silently drops blank texts, so the all-blank batch adds no
vector (`if len(embeddings) == 0: continue`) while the chunk was already
appended to `metadata`.  First conjunct: one empty-text chunk leaves
`len(metadata) = 1` but `ntotal = 0` (and `total_chunks = 0`).  Second
conjunct: the same call with non-blank text keeps the two in step. -/
theorem addDocument_blank_text_breaks_invariant :
    ((kvGet "c" (addDocument (fun _ => ()) (⟨[]⟩ : VectorStoreManager Unit) [] "c"
        [("", "aaaaaaaa-0000")] 100).1.stores).map
      (fun s => (s.metadata.length, ntotal s, s.totalChunks))) = some (1, 0, 0) ∧
    ((kvGet "c" (addDocument (fun _ => ()) (⟨[]⟩ : VectorStoreManager Unit) [] "c"
        [("hello", "aaaaaaaa-0000")] 100).1.stores).map
      (fun s => (s.metadata.length, ntotal s, s.totalChunks))) = some (1, 1, 1) := by
  constructor
  · decide
  · decide

theorem kvSet_mem_self {β : Type} (k : String) (v : β) :
    ∀ l : List (String × β), (k, v) ∈ kvSet k v l := by
  intro l
  induction l with
  | nil => simp [kvSet]
  | cons hd tl ih =>
    obtain ⟨k0, v0⟩ := hd
    unfold kvSet
    split
    · exact List.mem_cons_self _ _
    · exact List.mem_cons_of_mem _ ih

theorem loadFold_lookup {α : Type} (d : Disk α) (name : String)
    (st : VectorStore α) (hname : name ≠ "")
    (hload : loadStore name d = some st) :
    ∀ (entries : List (String × DiskFiles α)) (acc : List (String × VectorStore α)),
      (kvGet name acc = some st ∨
        ∃ p ∈ entries, p.2.infoFile.map (·.collectionName) = some name) →
      kvGet name (entries.foldl (loadStep d) acc) = some st := by
  intro entries
  induction entries with
  | nil =>
    intro acc h
    rcases h with h | ⟨p, hp, _⟩
    · exact h
    · simp at hp
  | cons e rest ih =>
    intro acc h
    rw [List.foldl_cons]
    apply ih
    rcases h with h | ⟨p, hp, hinfo⟩
    · left
      unfold loadStep
      split
      · exact h
      · rename_i info hinfoe
        split
        · exact h
        · rename_i hinfoname
          split
          · rename_i st' hload'
            by_cases hkey : info.collectionName = name
            · subst hkey
              rw [hload] at hload'
              rw [kvGet_kvSet_self]
              exact hload'.symm
            · rw [kvGet_kvSet_ne _ _ (Ne.symm hkey)]
              exact h
          · exact h
    · rcases List.mem_cons.mp hp with he | hrest
      · subst he
        left
        unfold loadStep
        rcases ho : p.2.infoFile with _ | info
        · rw [ho] at hinfo; simp at hinfo
        · rw [ho] at hinfo
          have hinfoname : info.collectionName = name := by
            simpa using hinfo
          simp only [ho]
          rw [hinfoname, if_neg hname, hload]
          exact kvGet_kvSet_self _ _ _
      · right
        exact ⟨p, hrest, hinfo⟩

/-- C8 counterexample: a collection whose name is the empty string does
not survive the round trip.  After `add_document("", …)` and its save,
the original manager reports `total_chunks = 1`, but a new manager over
the same disk reports nothing for that collection:
`load_existing_stores` skips any info blob whose collection name is
falsy (`if collection_name:`), so `get_collection_stats("")` returns
`{}` instead of the saved stats. -/
theorem persistence_roundtrip_counterexample :
    getCollectionStats (addDocument (fun _ => ()) (⟨[]⟩ : VectorStoreManager Unit)
      [] "" [("hello", "aaaaaaaa-1")] 100).1 "" =
      some ⟨"", 1, 1⟩ ∧
    getCollectionStats (newManager (addDocument (fun _ => ())
      (⟨[]⟩ : VectorStoreManager Unit) [] "" [("hello", "aaaaaaaa-1")] 100).2.1) ""
      = none := by
  constructor
  · decide
  · decide

/-- C8 (amended): for every collection whose name is non-empty (and whose
index exists — true of every store a manager creates), saving it and
rebuilding a manager over the same disk reproduces the same
`total_chunks` (and index size) in `get_collection_stats`. -/
theorem persistence_roundtrip {α : Type} (s : VectorStore α) (d : Disk α)
    (i : List (ℕ × α)) (hidx : s.index = some i) (hname : s.collectionName ≠ "") :
    getCollectionStats (newManager (saveStore s d)) s.collectionName =
      some ⟨s.collectionName, s.totalChunks, i.length⟩ ∧
    getStats s = ⟨s.collectionName, s.totalChunks, i.length⟩ := by
  have hsave : saveStore s d =
      kvSet s.collectionName
        (⟨some i, some s.metadata, some ⟨s.collectionName, s.totalChunks⟩⟩ :
          DiskFiles α) d := by
    simp [saveStore, hidx]
  have hload : loadStore s.collectionName (saveStore s d) =
      some ⟨s.collectionName, some i, s.metadata, s.totalChunks⟩ := by
    rw [hsave]
    simp [loadStore, kvGet_kvSet_self]
  have hmem : (s.collectionName,
      (⟨some i, some s.metadata, some ⟨s.collectionName, s.totalChunks⟩⟩ :
        DiskFiles α)) ∈ saveStore s d := by
    rw [hsave]
    exact kvSet_mem_self _ _ _
  have hfold := loadFold_lookup (saveStore s d) s.collectionName
    (⟨s.collectionName, some i, s.metadata, s.totalChunks⟩ : VectorStore α)
    hname hload (saveStore s d) []
    (Or.inr ⟨_, hmem, by simp⟩)
  constructor
  · show ((kvGet s.collectionName (loadExistingStores (saveStore s d))).map getStats)
      = _
    unfold loadExistingStores
    rw [hfold]
    simp [getStats, ntotal]
  · simp [getStats, ntotal, hidx]

/-- C8 witness at a concrete one-chunk collection named `"c"`. -/
theorem persistence_roundtrip_witness :
    getCollectionStats (newManager (saveStore
        (⟨"c", some [(0, ())], [⟨"id", "t", "c"⟩], 1⟩ : VectorStore Unit) [])) "c" =
      some ⟨"c", 1, 1⟩ ∧
    getStats (⟨"c", some [(0, ())], [⟨"id", "t", "c"⟩], 1⟩ : VectorStore Unit) =
      ⟨"c", 1, 1⟩ :=
  persistence_roundtrip _ [] [(0, ())] rfl (by decide)
